import Mathlib

/-!
Verification of the StockaDoodle inventory/retail API core: the atomic
sale-apply transaction (`SalesManager.record_atomic_sale`), the sale-undo
route (`undo_sale` in `routes/sales.py`), the stock adjustment helper
(`InventoryManager.update_stock`) and the disposal route (`dispose_product`
in `routes/logs.py`), shallowly embedded as pure functions on an explicit
database state.

Conventions of the embedding:
  * money amounts (`price`, `total_amount`, `daily_quota_usd`) are `ℚ`;
  * calendar dates are day numbers in `ℤ`; `date.today()` becomes an
    explicit `today : ℤ` argument;
  * SQLAlchemy sessions become explicit state passing: a successful
    `db.session.commit()` returns the mutated state, and
    `db.session.rollback()` returns the original state unchanged;
  * `Model.query.get(pk)` / `filter_by(..).first()` become `List.find?`,
    and a mutation of the returned row becomes an update of the first
    matching list entry;
  * the JSON snapshot `sale_items_json` is kept as the structured item
    list (serialization round-trips to the identity at this level);
  * the distinct `ValueError` messages raised by `record_atomic_sale`
    are represented by the `SaleError` inductive.
-/

namespace StockaDoodle

/-- One sale line item `{product_id, quantity, price}` as sent by the
client and stored in `sale_items_json`. -/
structure SaleItem where
  product_id : Nat
  quantity : Int
  price : ℚ
deriving DecidableEq, Repr

/-- The `products` table row (fields the core operations touch). -/
structure Product where
  id : Nat
  name : String
  stock_level : Int
  min_stock_level : Int
  price : ℚ
deriving DecidableEq, Repr

/-- The `sales` table row. -/
structure Sale where
  id : Nat
  retailer_id : Nat
  total_amount : ℚ
  sale_items_json : List SaleItem
deriving DecidableEq, Repr

/-- The `retailer_metrics` table row. Nullable columns are `Option`;
`record_atomic_sale` coalesces them with `or 0.0` / `or 0`. -/
structure RetailerMetrics where
  retailer_id : Nat
  daily_quota_usd : Option ℚ
  current_streak : Option Int
  last_sale_date : Option Int
deriving DecidableEq, Repr

/-- A `product_log` row as appended by `ActivityLogger.log_product_action`
and by `dispose_product`. -/
structure ProductLog where
  product_id : Option Nat
  user_id : Option Nat
  action_type : String
  notes : Option String
deriving DecidableEq, Repr

/-- The database state the sale/inventory core reads and writes, plus the
`users` table (as a set of ids) which the sale path never consults. -/
structure DB where
  products : List Product
  sales : List Sale
  metrics : List RetailerMetrics
  users : List Nat
  logs : List ProductLog
  next_sale_id : Nat
deriving DecidableEq, Repr

/-- `Product.query.get(pid)`. -/
def DB.productGet (db : DB) (pid : Nat) : Option Product :=
  db.products.find? (fun p => p.id == pid)

/-- `Sale.query.get(sid)`. -/
def DB.saleGet (db : DB) (sid : Nat) : Option Sale :=
  db.sales.find? (fun s => s.id == sid)

/-- `RetailerMetrics.query.filter_by(retailer_id=rid).first()`. -/
def DB.metricsGet (db : DB) (rid : Nat) : Option RetailerMetrics :=
  db.metrics.find? (fun m => m.retailer_id == rid)

/-- Mutating the `stock_level` attribute of the row returned by
`Product.query.get`: updates the first product with the given id. -/
def updateStock : List Product → Nat → (Int → Int) → List Product
  | [], _, _ => []
  | p :: rest, pid, f =>
    if p.id == pid then { p with stock_level := f p.stock_level } :: rest
    else p :: updateStock rest pid f

/-- Mutating the first metrics row matching `retailer_id` (no-op when
absent), as the undo route does. -/
def updateMetricsFirst : List RetailerMetrics → Nat →
    (RetailerMetrics → RetailerMetrics) → List RetailerMetrics
  | [], _, _ => []
  | m :: rest, rid, f =>
    if m.retailer_id == rid then f m :: rest
    else m :: updateMetricsFirst rest rid f

/-- Writing back a metrics row in `record_atomic_sale`: replace the first
row matching `retailer_id`, or `db.session.add` a fresh one at the end. -/
def setMetrics : List RetailerMetrics → Nat → RetailerMetrics →
    List RetailerMetrics
  | [], _, m => [m]
  | m :: rest, rid, m' =>
    if m.retailer_id == rid then m' :: rest
    else m :: setMetrics rest rid m'

/-- The distinct `ValueError`s raised inside `record_atomic_sale`, plus
the early-return invalid-payload case. -/
inductive SaleError where
  | invalidPayload
  | invalidQuantity (pid : Nat)
  | productNotFound (pid : Nat)
  | insufficientStock (pid : Nat)
deriving DecidableEq, Repr

/-- The validate-and-deduct loop of `record_atomic_sale`: for each item in
input order, raise on `qty <= 0`, on a missing product, or on
`product.stock_level < qty`; otherwise perform the in-memory decrement
`product.stock_level -= qty` and continue with the updated session. -/
def validateAndDeduct : List SaleItem → List Product →
    Except SaleError (List Product)
  | [], ps => .ok ps
  | it :: rest, ps =>
    if it.quantity ≤ 0 then .error (.invalidQuantity it.product_id)
    else
      match ps.find? (fun p => p.id == it.product_id) with
      | none => .error (.productNotFound it.product_id)
      | some p =>
        if p.stock_level < it.quantity then
          .error (.insufficientStock it.product_id)
        else validateAndDeduct rest (updateStock ps it.product_id
          (fun s => s - it.quantity))

/-- The streak computation of `record_atomic_sale`: first-ever sale sets 1;
same-day sale leaves the column untouched (`pass`); a sale exactly one day
after the last increments `(current_streak or 0)`; anything else resets
to 1. -/
def streakUpdate (m : RetailerMetrics) (today : Int) : Option Int :=
  match m.last_sale_date with
  | none => some 1
  | some last =>
    if last = today then m.current_streak
    else if last = today - 1 then some (m.current_streak.getD 0 + 1)
    else some 1

/-- The metrics mutation of `record_atomic_sale` on the loaded (or freshly
added) row: `daily_quota_usd = (old or 0.0) + total`, the streak rule, and
`last_sale_date = today`. -/
def updateMetricsOnSale (m : RetailerMetrics) (total : ℚ) (today : Int) :
    RetailerMetrics :=
  { m with
    daily_quota_usd := some (m.daily_quota_usd.getD 0 + total)
    current_streak := streakUpdate m today
    last_sale_date := some today }

/-- Fresh `RetailerMetrics(retailer_id=rid)` row (nullable columns unset). -/
def freshMetrics (rid : Nat) : RetailerMetrics :=
  { retailer_id := rid, daily_quota_usd := none, current_streak := none
    last_sale_date := none }

/-- One `ActivityLogger.log_product_action(pid, rid, 'Sale', "Qty q")` row. -/
def saleLog (rid : Nat) (it : SaleItem) : ProductLog :=
  { product_id := some it.product_id, user_id := some rid
    action_type := "Sale", notes := some ("Qty " ++ toString it.quantity) }

/-- The `Sale(...)` row `record_atomic_sale` constructs. -/
def mkSale (db : DB) (rid : Nat) (t : ℚ) (items : List SaleItem) : Sale :=
  { id := db.next_sale_id, retailer_id := rid, total_amount := t
    sale_items_json := items }

/-- `SalesManager.record_atomic_sale(retailer_id, items, total_amount)`,
with `today` made explicit. Returns the post-commit state together with
the `(sale, error)` pair of the source; on any raised error the state
returned is the original one (`db.session.rollback()`). -/
def record_atomic_sale (db : DB) (retailer_id : Nat) (items : List SaleItem)
    (total_amount : Option ℚ) (today : Int) :
    DB × Option Sale × Option SaleError :=
  match total_amount with
  | none => (db, none, some .invalidPayload)
  | some total =>
    if items.isEmpty then (db, none, some .invalidPayload)
    else
      match validateAndDeduct items db.products with
      | .error e => (db, none, some e)
      | .ok ps =>
        let sale := mkSale db retailer_id total items
        let m0 := (db.metricsGet retailer_id).getD (freshMetrics retailer_id)
        let m1 := updateMetricsOnSale m0 total today
        ({ products := ps
           sales := db.sales ++ [sale]
           metrics := setMetrics db.metrics retailer_id m1
           users := db.users
           logs := db.logs ++ items.map (saleLog retailer_id)
           next_sale_id := db.next_sale_id + 1 },
         some sale, none)

/-- Outcome of the `DELETE /sales/<id>` route. -/
inductive UndoResult where
  | notFound
  | ok
deriving DecidableEq, Repr

/-- The stock-restoration loop of `undo_sale`: for each recorded item,
`p = Product.query.get(pid); if p: p.stock_level += qty` (a deleted
product is skipped silently). -/
def restoreStock : List SaleItem → List Product → List Product
  | [], ps => ps
  | it :: rest, ps =>
    restoreStock rest (updateStock ps it.product_id (fun s => s + it.quantity))

/-- The metrics adjustment of `undo_sale`:
`daily_quota_usd = max(0.0, (daily_quota_usd or 0.0) - total)`. -/
def undoQuota (total : ℚ) (m : RetailerMetrics) : RetailerMetrics :=
  { m with daily_quota_usd := some (max 0 (m.daily_quota_usd.getD 0 - total)) }

/-- `undo_sale(sale_id)` from `routes/sales.py`: 404 (state unchanged) when
the sale is missing; otherwise restore stock from the snapshot, floor the
retailer's `daily_quota_usd` at zero after subtracting the sale total, and
delete the sale row. -/
def undo_sale (db : DB) (sale_id : Nat) : DB × UndoResult :=
  match db.saleGet sale_id with
  | none => (db, .notFound)
  | some sale =>
    let ps := restoreStock sale.sale_items_json db.products
    let ms := updateMetricsFirst db.metrics sale.retailer_id
      (undoQuota sale.total_amount)
    ({ db with
        products := ps
        metrics := ms
        sales := db.sales.filter (fun s => !(s.id == sale_id)) },
     .ok)

/-- The activity-log row `update_stock` appends (`acting_user_id or 0`). -/
def adjustLog (product_id : Nat) (acting_user_id : Option Nat)
    (action_type : String) (notes : Option String) : ProductLog :=
  { product_id := some product_id, user_id := some (acting_user_id.getD 0)
    action_type := action_type, notes := notes }

/-- The log row `dispose_product` appends. -/
def disposeLog (product_id : Nat) (user_id : Nat) (notes : Option String) :
    ProductLog :=
  { product_id := some product_id, user_id := some user_id
    action_type := "Dispose", notes := notes }

/-- `InventoryManager.update_stock(product_id, delta, ...)`: missing
product errors; otherwise `stock_level = (stock_level or 0) + delta`
(no floor), one activity-log row, commit. -/
def update_stock (db : DB) (product_id : Nat) (delta : Int)
    (acting_user_id : Option Nat) (action_type : String)
    (notes : Option String) : DB × Bool × Option String :=
  match db.productGet product_id with
  | none => (db, false, some "Product not found")
  | some _ =>
    ({ db with
        products := updateStock db.products product_id (fun s => s + delta)
        logs := db.logs ++ [adjustLog product_id acting_user_id
          action_type notes] },
     true, none)

/-- `POST /log/dispose` from `routes/logs.py`: falsy `product_id`/`user_id`
or `qty <= 0` give 400; a missing product gives 404; otherwise
`stock_level = max(0, stock_level - qty)`, one log row, 201. -/
def dispose_product (db : DB) (product_id : Nat) (user_id : Nat)
    (qty : Int) (notes : Option String) : DB × Nat :=
  if product_id = 0 ∨ user_id = 0 ∨ qty ≤ 0 then (db, 400)
  else
    match db.productGet product_id with
    | none => (db, 404)
    | some _ =>
      ({ db with
          products := updateStock db.products product_id
            (fun s => max 0 (s - qty))
          logs := db.logs ++ [disposeLog product_id user_id notes] },
       201)

/-- Total stock over the whole products table. -/
def sumStock (ps : List Product) : Int :=
  (ps.map Product.stock_level).sum

/-- Stock level of the (first) product with a given id. -/
def stockOf (ps : List Product) (pid : Nat) : Option Int :=
  (ps.find? (fun p => p.id == pid)).map Product.stock_level

/-- Total quantity an item list requests for a given product id. -/
def demandFor (items : List SaleItem) (pid : Nat) : Int :=
  ((items.filter (fun it => it.product_id == pid)).map SaleItem.quantity).sum

/-- Total quantity across all line items. -/
def totalQty (items : List SaleItem) : Int :=
  (items.map SaleItem.quantity).sum

/-- Every product row has nonnegative stock. -/
def allNonneg (ps : List Product) : Prop := ∀ p ∈ ps, 0 ≤ p.stock_level

/-! ### Concrete instances used to exercise the theorems -/

/-- A product with ample stock. -/
def exProduct : Product :=
  { id := 1, name := "Widget", stock_level := 10, min_stock_level := 2
    price := 5 }

/-- A valid line item for `exProduct`. -/
def exItem : SaleItem := { product_id := 1, quantity := 3, price := 5 }

/-- A line item with a non-positive quantity. -/
def exBadItem : SaleItem := { product_id := 1, quantity := 0, price := 5 }

/-- A fresh store with one product and no users, sales or metrics. -/
def exDB : DB :=
  { products := [exProduct], sales := [], metrics := [], users := []
    logs := [], next_sale_id := 1 }

/-- Metrics of a retailer with an ongoing streak. -/
def exMetrics : RetailerMetrics :=
  { retailer_id := 7, daily_quota_usd := some 20, current_streak := some 4
    last_sale_date := some 9 }

/-- A sale recorded earlier by retailer 7. -/
def exSale : Sale :=
  { id := 1, retailer_id := 7, total_amount := 15
    sale_items_json := [exItem] }

/-- A store holding `exSale` and retailer 7's metrics. -/
def exDB2 : DB :=
  { products := [exProduct], sales := [exSale], metrics := [exMetrics]
    users := [7], logs := [], next_sale_id := 2 }

/-- A store holding `exSale` but no metrics row. -/
def exDB3 : DB :=
  { products := [exProduct], sales := [exSale], metrics := []
    users := [7], logs := [], next_sale_id := 2 }

/-- The unconditional deduction fold: what the validation loop does to the
products table when every check passes. -/
def deductAll : List SaleItem → List Product → List Product
  | [], ps => ps
  | it :: rest, ps =>
    deductAll rest (updateStock ps it.product_id (fun s => s - it.quantity))

/-- A line item whose product id matches nothing and whose quantity is
non-positive. -/
def exGhostItem : SaleItem := { product_id := 99, quantity := 0, price := 1 }

/-- `exProduct` with the sold quantity restored. -/
def exProduct13 : Product :=
  { id := 1, name := "Widget", stock_level := 13, min_stock_level := 2
    price := 5 }

/-- `exDB3` after a successful undo of `exSale`: stock restored to 13,
sale row gone. -/
def exDB3Undone : DB :=
  { products := [exProduct13], sales := [], metrics := [], users := [7]
    logs := [], next_sale_id := 2 }

/-- `exProduct` holding only 5 units. -/
def exProduct5 : Product :=
  { id := 1, name := "Widget", stock_level := 5, min_stock_level := 2
    price := 5 }

/-- A store whose only product holds 5 units. -/
def exLowDB : DB :=
  { products := [exProduct5], sales := [], metrics := [], users := []
    logs := [], next_sale_id := 1 }

instance decAllNonneg (ps : List Product) : Decidable (allNonneg ps) :=
  inferInstanceAs (Decidable (∀ p ∈ ps, 0 ≤ p.stock_level))

/-! ### Lemmas about `updateStock` -/

theorem updateStock_map_id (ps : List Product) (pid : Nat) (f : Int → Int) :
    (updateStock ps pid f).map Product.id = ps.map Product.id := by
  induction ps with
  | nil => rfl
  | cons p rest ih =>
    simp only [updateStock]
    by_cases h : p.id == pid
    · simp [h]
    · simp [h, ih]

theorem stockOf_updateStock_self (ps : List Product) (pid : Nat)
    (f : Int → Int) :
    stockOf (updateStock ps pid f) pid = (stockOf ps pid).map f := by
  induction ps with
  | nil => rfl
  | cons p rest ih =>
    simp only [updateStock, stockOf]
    by_cases h : p.id == pid
    · simp [List.find?, h]
    · simp only [List.find?, h]
      simpa [stockOf] using ih

theorem stockOf_updateStock_other (ps : List Product) (pid pid' : Nat)
    (f : Int → Int) (hne : pid ≠ pid') :
    stockOf (updateStock ps pid f) pid' = stockOf ps pid' := by
  induction ps with
  | nil => rfl
  | cons p rest ih =>
    simp only [updateStock, stockOf]
    by_cases h : p.id == pid
    · have hid : p.id = pid := by simpa using h
      have h' : ¬ (p.id == pid') := by simp [hid, hne]
      simp [List.find?, h, h']
    · simp only [List.find?, h]
      by_cases h' : p.id == pid'
      · simp [List.find?, h']
      · simp only [h', cond_false]
        simpa [stockOf] using ih

theorem updateStock_updateStock_self (ps : List Product) (pid : Nat)
    (f g : Int → Int) :
    updateStock (updateStock ps pid f) pid g =
      updateStock ps pid (fun s => g (f s)) := by
  induction ps with
  | nil => rfl
  | cons p rest ih =>
    simp only [updateStock]
    by_cases h : p.id == pid
    · simp [updateStock, h]
    · simp [updateStock, h, ih]

theorem updateStock_updateStock_comm (ps : List Product) (pid pid' : Nat)
    (f g : Int → Int) (hne : pid ≠ pid') :
    updateStock (updateStock ps pid f) pid' g =
      updateStock (updateStock ps pid' g) pid f := by
  induction ps with
  | nil => rfl
  | cons p rest ih =>
    simp only [updateStock]
    by_cases h : p.id == pid
    · have hid : p.id = pid := by simpa using h
      have h' : ¬ (p.id == pid') := by simp [hid, hne]
      simp [updateStock, h, h']
    · by_cases h' : p.id == pid'
      · simp [updateStock, h, h']
      · simp [updateStock, h, h', ih]

theorem updateStock_congr (ps : List Product) (pid : Nat) (f g : Int → Int)
    (h : ∀ s, f s = g s) : updateStock ps pid f = updateStock ps pid g := by
  induction ps with
  | nil => rfl
  | cons p rest ih =>
    simp only [updateStock]
    by_cases hp : p.id == pid
    · simp [hp, h]
    · simp [hp, ih]

theorem updateStock_id (ps : List Product) (pid : Nat) (f : Int → Int)
    (h : ∀ s, f s = s) : updateStock ps pid f = ps := by
  induction ps with
  | nil => rfl
  | cons p rest ih =>
    simp only [updateStock]
    by_cases hp : p.id == pid
    · simp [hp, h]
    · simp [hp, ih]

theorem sumStock_updateStock (ps : List Product) (pid : Nat)
    (f : Int → Int) (s : Int) (h : stockOf ps pid = some s) :
    sumStock (updateStock ps pid f) = sumStock ps - s + f s := by
  induction ps with
  | nil => simp [stockOf] at h
  | cons p rest ih =>
    by_cases hp : p.id == pid
    · simp only [stockOf, List.find?, hp, cond_true, Option.map_some',
        Option.some.injEq] at h
      subst h
      simp only [updateStock, if_pos hp, sumStock, List.map_cons,
        List.sum_cons]
      omega
    · simp only [stockOf, List.find?, hp, cond_false] at h
      have h2 := ih (by simpa [stockOf] using h)
      simp only [updateStock, if_neg hp, sumStock, List.map_cons,
        List.sum_cons] at h2 ⊢
      omega

theorem mem_updateStock (ps : List Product) (pid : Nat) (f : Int → Int)
    (p : Product) (hmem : p ∈ updateStock ps pid f) :
    p ∈ ps ∨ ∃ p₀, ps.find? (fun x => x.id == pid) = some p₀ ∧
      p = { p₀ with stock_level := f p₀.stock_level } := by
  induction ps with
  | nil => simp [updateStock] at hmem
  | cons q rest ih =>
    simp only [updateStock] at hmem
    by_cases h : q.id == pid
    · rw [if_pos h] at hmem
      rcases List.mem_cons.mp hmem with hq | hq
      · exact Or.inr ⟨q, by simp [List.find?, h], hq⟩
      · exact Or.inl (List.mem_cons_of_mem _ hq)
    · rw [if_neg h] at hmem
      rcases List.mem_cons.mp hmem with hq | hq
      · exact Or.inl (hq ▸ List.mem_cons_self _ _)
      · rcases ih hq with h' | ⟨p₀, hfind, hp⟩
        · exact Or.inl (List.mem_cons_of_mem _ h')
        · exact Or.inr ⟨p₀, by simp [List.find?, h, hfind], hp⟩

/-! ### The validation loop as the unconditional fold -/

theorem validateAndDeduct_ok_eq_deductAll (items : List SaleItem)
    (ps ps' : List Product) (h : validateAndDeduct items ps = .ok ps') :
    ps' = deductAll items ps := by
  induction items generalizing ps with
  | nil =>
    simp only [validateAndDeduct, Except.ok.injEq] at h
    simpa [deductAll] using h.symm
  | cons it rest ih =>
    simp only [validateAndDeduct] at h
    by_cases hq : it.quantity ≤ 0
    · simp [hq] at h
    · rw [if_neg hq] at h
      cases hfind : ps.find? (fun p => p.id == it.product_id) with
      | none => rw [hfind] at h; exact absurd h (by simp)
      | some p =>
        rw [hfind] at h
        by_cases hs : p.stock_level < it.quantity
        · simp [hs] at h
        · simp only [if_neg hs] at h
          simpa [deductAll] using ih _ h

theorem updateStock_add_sub_comm (ps : List Product) (pid pid' : Nat)
    (q a : Int) :
    updateStock (updateStock ps pid (fun s => s + q)) pid'
        (fun s => s - a) =
      updateStock (updateStock ps pid' (fun s => s - a)) pid
        (fun s => s + q) := by
  by_cases h : pid = pid'
  · subst h
    rw [updateStock_updateStock_self, updateStock_updateStock_self]
    exact updateStock_congr _ _ _ _ (fun s => by omega)
  · exact updateStock_updateStock_comm _ _ _ _ _ h

theorem deductAll_updateStock_add (items : List SaleItem)
    (ps : List Product) (pid : Nat) (q : Int) :
    deductAll items (updateStock ps pid (fun s => s + q)) =
      updateStock (deductAll items ps) pid (fun s => s + q) := by
  induction items generalizing ps with
  | nil => rfl
  | cons it rest ih =>
    simp only [deductAll]
    rw [updateStock_add_sub_comm, ih]

theorem restoreStock_deductAll (items : List SaleItem) (ps : List Product) :
    restoreStock items (deductAll items ps) = ps := by
  induction items generalizing ps with
  | nil => rfl
  | cons it rest ih =>
    simp only [deductAll, restoreStock]
    rw [← deductAll_updateStock_add, updateStock_updateStock_self]
    have : updateStock ps it.product_id
        (fun s => s - it.quantity + it.quantity) = ps :=
      updateStock_id _ _ _ (fun s => by omega)
    rw [this, ih]

theorem demandFor_cons (it : SaleItem) (rest : List SaleItem) (pid : Nat) :
    demandFor (it :: rest) pid =
      (if it.product_id = pid then it.quantity else 0) +
        demandFor rest pid := by
  by_cases h : it.product_id = pid
  · have hb : (it.product_id == pid) = true := by simp [h]
    simp [demandFor, List.filter, hb, h]
  · have hb : (it.product_id == pid) = false := by simp [h]
    simp [demandFor, List.filter, hb, h]

theorem demandFor_eq_zero (items : List SaleItem) (pid : Nat)
    (h : ∀ it ∈ items, it.product_id ≠ pid) : demandFor items pid = 0 := by
  induction items with
  | nil => rfl
  | cons it rest ih =>
    rw [demandFor_cons, if_neg (h it (List.mem_cons_self _ _)),
      ih (fun x hx => h x (List.mem_cons_of_mem _ hx))]
    omega

theorem stockOf_deductAll (items : List SaleItem) (ps : List Product)
    (pid : Nat) :
    stockOf (deductAll items ps) pid =
      (stockOf ps pid).map (fun s => s - demandFor items pid) := by
  induction items generalizing ps with
  | nil =>
    cases h : stockOf ps pid <;> simp [deductAll, demandFor, h]
  | cons it rest ih =>
    simp only [deductAll]
    rw [ih, demandFor_cons]
    by_cases h : it.product_id = pid
    · subst h
      rw [stockOf_updateStock_self]
      cases hx : stockOf ps it.product_id
      · simp [hx]
      · simp [hx]
        omega
    · rw [stockOf_updateStock_other _ _ _ _ h, if_neg h]
      cases hx : stockOf ps pid <;> simp [hx]

theorem sumStock_validateAndDeduct (items : List SaleItem)
    (ps ps' : List Product) (h : validateAndDeduct items ps = .ok ps') :
    sumStock ps' = sumStock ps - totalQty items := by
  induction items generalizing ps with
  | nil =>
    simp only [validateAndDeduct, Except.ok.injEq] at h
    simp [← h, totalQty]
  | cons it rest ih =>
    simp only [validateAndDeduct] at h
    by_cases hq : it.quantity ≤ 0
    · simp [hq] at h
    · rw [if_neg hq] at h
      cases hfind : ps.find? (fun p => p.id == it.product_id) with
      | none => rw [hfind] at h; exact absurd h (by simp)
      | some p =>
        rw [hfind] at h
        by_cases hs : p.stock_level < it.quantity
        · simp [hs] at h
        · simp only [if_neg hs] at h
          have hstock : stockOf ps it.product_id = some p.stock_level := by
            simp [stockOf, hfind]
          have := ih _ h
          rw [sumStock_updateStock _ _ _ _ hstock] at this
          simp only [totalQty, List.map_cons, List.sum_cons] at *
          omega

/-! ### Nonnegativity, presence and error-kind lemmas -/

theorem allNonneg_updateStock (ps : List Product) (pid : Nat)
    (f : Int → Int) (h : allNonneg ps)
    (hf : ∀ p₀, ps.find? (fun x => x.id == pid) = some p₀ →
      0 ≤ f p₀.stock_level) :
    allNonneg (updateStock ps pid f) := by
  intro p hp
  rcases mem_updateStock _ _ _ _ hp with hmem | ⟨p₀, hfind, rfl⟩
  · exact h _ hmem
  · exact hf _ hfind

theorem validateAndDeduct_ok_allNonneg (items : List SaleItem)
    (ps ps' : List Product) (h : validateAndDeduct items ps = .ok ps')
    (hn : allNonneg ps) : allNonneg ps' := by
  induction items generalizing ps with
  | nil =>
    simp only [validateAndDeduct, Except.ok.injEq] at h
    exact h ▸ hn
  | cons it rest ih =>
    simp only [validateAndDeduct] at h
    by_cases hq : it.quantity ≤ 0
    · simp [hq] at h
    · rw [if_neg hq] at h
      cases hfind : ps.find? (fun p => p.id == it.product_id) with
      | none => rw [hfind] at h; exact absurd h (by simp)
      | some p =>
        rw [hfind] at h
        by_cases hs : p.stock_level < it.quantity
        · simp [hs] at h
        · simp only [if_neg hs] at h
          refine ih _ h (allNonneg_updateStock _ _ _ hn ?_)
          intro p₀ hf₀
          rw [hfind] at hf₀
          cases hf₀
          omega

theorem restoreStock_allNonneg (items : List SaleItem) (ps : List Product)
    (hq : ∀ it ∈ items, 0 ≤ it.quantity) (hn : allNonneg ps) :
    allNonneg (restoreStock items ps) := by
  induction items generalizing ps with
  | nil => exact hn
  | cons it rest ih =>
    refine ih _ (fun x hx => hq x (List.mem_cons_of_mem _ hx)) ?_
    refine allNonneg_updateStock _ _ _ hn ?_
    intro p₀ hf₀
    have h₀ := hn _ (List.mem_of_find?_eq_some hf₀)
    have := hq it (List.mem_cons_self _ _)
    omega

theorem stockOf_isSome_updateStock (ps : List Product) (pid pid' : Nat)
    (f : Int → Int) :
    (stockOf (updateStock ps pid f) pid').isSome =
      (stockOf ps pid').isSome := by
  by_cases h : pid = pid'
  · subst h
    rw [stockOf_updateStock_self]
    cases stockOf ps pid <;> simp
  · rw [stockOf_updateStock_other _ _ _ _ h]

theorem validateAndDeduct_ok_stockOf_nonneg (items : List SaleItem)
    (ps ps' : List Product) (h : validateAndDeduct items ps = .ok ps')
    (pid : Nat) (hocc : ∃ it ∈ items, it.product_id = pid) :
    ∃ s, stockOf ps' pid = some s ∧ 0 ≤ s := by
  induction items generalizing ps with
  | nil => simp at hocc
  | cons it rest ih =>
    simp only [validateAndDeduct] at h
    by_cases hq : it.quantity ≤ 0
    · simp [hq] at h
    · rw [if_neg hq] at h
      cases hfind : ps.find? (fun p => p.id == it.product_id) with
      | none => rw [hfind] at h; exact absurd h (by simp)
      | some p =>
        rw [hfind] at h
        by_cases hs : p.stock_level < it.quantity
        · simp [hs] at h
        · simp only [if_neg hs] at h
          by_cases hr : ∃ x ∈ rest, x.product_id = pid
          · exact ih _ h hr
          · have hpid : it.product_id = pid := by
              rcases hocc with ⟨x, hx, hxp⟩
              rcases List.mem_cons.mp hx with hx' | hx'
              · exact hx' ▸ hxp
              · exact absurd ⟨x, hx', hxp⟩ hr
            have hdz : demandFor rest pid = 0 :=
              demandFor_eq_zero _ _ (fun x hx hc => hr ⟨x, hx, hc⟩)
            have hdd := validateAndDeduct_ok_eq_deductAll _ _ _ h
            subst hdd
            rw [stockOf_deductAll, hdz]
            subst hpid
            rw [stockOf_updateStock_self]
            have hst : stockOf ps it.product_id = some p.stock_level := by
              simp [stockOf, hfind]
            rw [hst]
            exact ⟨p.stock_level - it.quantity, by simp, by omega⟩

theorem validateAndDeduct_error_kind (items : List SaleItem)
    (ps : List Product) (e : SaleError)
    (h : validateAndDeduct items ps = .error e)
    (hq : ∀ it ∈ items, 1 ≤ it.quantity)
    (hp : ∀ it ∈ items, (stockOf ps it.product_id).isSome) :
    ∃ pid, e = .insufficientStock pid := by
  induction items generalizing ps with
  | nil => simp [validateAndDeduct] at h
  | cons it rest ih =>
    simp only [validateAndDeduct] at h
    have hq1 : ¬ it.quantity ≤ 0 := by
      have := hq it (List.mem_cons_self _ _)
      omega
    rw [if_neg hq1] at h
    cases hfind : ps.find? (fun p => p.id == it.product_id) with
    | none =>
      have := hp it (List.mem_cons_self _ _)
      rw [stockOf, hfind] at this
      simp at this
    | some p =>
      rw [hfind] at h
      by_cases hs : p.stock_level < it.quantity
      · simp only [if_pos hs] at h
        exact ⟨it.product_id, by simpa using h.symm⟩
      · simp only [if_neg hs] at h
        refine ih _ h (fun x hx => hq x (List.mem_cons_of_mem _ hx)) ?_
        intro x hx
        rw [stockOf_isSome_updateStock]
        exact hp x (List.mem_cons_of_mem _ hx)

/-! ### Metrics and sale-row lookup lemmas -/

theorem setMetrics_find_self (ms : List RetailerMetrics) (rid : Nat)
    (m' : RetailerMetrics) (h : m'.retailer_id = rid) :
    (setMetrics ms rid m').find? (fun m => m.retailer_id == rid) =
      some m' := by
  induction ms with
  | nil => simp [setMetrics, List.find?, h]
  | cons m rest ih =>
    simp only [setMetrics]
    by_cases hm : m.retailer_id == rid
    · rw [if_pos hm]
      simp [List.find?, h]
    · rw [if_neg hm]
      simp only [List.find?, hm, cond_false]
      exact ih

theorem updateMetricsFirst_find_self (ms : List RetailerMetrics) (rid : Nat)
    (f : RetailerMetrics → RetailerMetrics)
    (hf : ∀ m, (f m).retailer_id = m.retailer_id) :
    (updateMetricsFirst ms rid f).find? (fun m => m.retailer_id == rid) =
      (ms.find? (fun m => m.retailer_id == rid)).map f := by
  induction ms with
  | nil => rfl
  | cons m rest ih =>
    simp only [updateMetricsFirst]
    by_cases hm : m.retailer_id == rid
    · rw [if_pos hm]
      have : ((f m).retailer_id == rid) = true := by
        rw [hf m]; exact hm
      simp [List.find?, this, hm]
    · rw [if_neg hm]
      simp only [List.find?, hm, cond_false]
      exact ih

theorem find?_filter_self_none (l : List Sale) (sid : Nat) :
    (l.filter (fun s => !(s.id == sid))).find? (fun s => s.id == sid) =
      none := by
  induction l with
  | nil => rfl
  | cons s rest ih =>
    by_cases h : s.id == sid
    · simp only [List.filter, h, Bool.not_true]
      exact ih
    · simp only [List.filter, h, Bool.not_false, List.find?, cond_false]
      exact ih

/-! ### Unfolding the success paths -/

theorem record_atomic_sale_ok (db : DB) (rid : Nat) (items : List SaleItem)
    (t : ℚ) (today : Int) (ps : List Product) (hne : items ≠ [])
    (hvd : validateAndDeduct items db.products = .ok ps) :
    record_atomic_sale db rid items (some t) today =
      ({ products := ps
         sales := db.sales ++ [mkSale db rid t items]
         metrics := setMetrics db.metrics rid (updateMetricsOnSale
           ((db.metricsGet rid).getD (freshMetrics rid)) t today)
         users := db.users
         logs := db.logs ++ items.map (saleLog rid)
         next_sale_id := db.next_sale_id + 1 },
       some (mkSale db rid t items), none) := by
  have he : items.isEmpty = false := by
    cases items with
    | nil => exact absurd rfl hne
    | cons a l => rfl
  unfold record_atomic_sale
  rw [he]
  simp only [Bool.false_eq_true, if_false, hvd]

theorem record_atomic_sale_error (db : DB) (rid : Nat)
    (items : List SaleItem) (t : ℚ) (today : Int) (e : SaleError)
    (hne : items ≠ [])
    (hvd : validateAndDeduct items db.products = .error e) :
    record_atomic_sale db rid items (some t) today = (db, none, some e) := by
  have he : items.isEmpty = false := by
    cases items with
    | nil => exact absurd rfl hne
    | cons a l => rfl
  unfold record_atomic_sale
  rw [he]
  simp only [Bool.false_eq_true, if_false, hvd]

theorem undo_sale_found (db : DB) (sid : Nat) (sale : Sale)
    (h : db.saleGet sid = some sale) :
    undo_sale db sid =
      ({ db with
          products := restoreStock sale.sale_items_json db.products
          metrics := updateMetricsFirst db.metrics sale.retailer_id
            (undoQuota sale.total_amount)
          sales := db.sales.filter (fun s => !(s.id == sid)) },
       .ok) := by
  unfold undo_sale
  rw [h]

theorem validateAndDeduct_append (pre suf : List SaleItem)
    (ps ps₁ : List Product) (h : validateAndDeduct pre ps = .ok ps₁) :
    validateAndDeduct (pre ++ suf) ps = validateAndDeduct suf ps₁ := by
  induction pre generalizing ps with
  | nil =>
    simp only [validateAndDeduct, Except.ok.injEq] at h
    rw [List.nil_append, h]
  | cons it rest ih =>
    simp only [validateAndDeduct, List.cons_append] at h ⊢
    by_cases hq : it.quantity ≤ 0
    · simp [hq] at h
    · rw [if_neg hq] at h ⊢
      cases hfind : ps.find? (fun p => p.id == it.product_id) with
      | none => rw [hfind] at h; exact absurd h (by simp)
      | some p =>
        rw [hfind] at h
        by_cases hs : p.stock_level < it.quantity
        · simp [hs] at h
        · simp only [if_neg hs] at h ⊢
          exact ih _ h

theorem find?_append_sale (l : List Sale) (sale : Sale) (sid : Nat)
    (h : ∀ s ∈ l, s.id ≠ sid) (hsale : sale.id = sid) :
    (l ++ [sale]).find? (fun s => s.id == sid) = some sale := by
  induction l with
  | nil => simp [List.find?, hsale]
  | cons s rest ih =>
    have hfalse : (s.id == sid) = false := by
      simp [h s (List.mem_cons_self _ _)]
    simp only [List.cons_append, List.find?, hfalse, cond_false]
    exact ih (fun x hx => h x (List.mem_cons_of_mem _ hx))

/-! ### Claim theorems -/

/-- C1: whenever `record_atomic_sale` reports an error — in particular when
any line item fails validation (missing product, non-positive quantity, or
insufficient stock) — the whole operation is rolled back: the returned
state is exactly the caller's state (no stock change, no Sale row, no
RetailerMetrics row created or updated, no log rows) and no Sale is
returned. -/
theorem C1_sale_error_rolls_back (db : DB) (rid : Nat)
    (items : List SaleItem) (total : Option ℚ) (today : Int)
    (h : (record_atomic_sale db rid items total today).2.2.isSome) :
    (record_atomic_sale db rid items total today).1 = db ∧
    (record_atomic_sale db rid items total today).2.1 = none := by
  cases total with
  | none => exact ⟨rfl, rfl⟩
  | some t =>
    cases items with
    | nil => exact ⟨rfl, rfl⟩
    | cons it rest =>
      cases hvd : validateAndDeduct (it :: rest) db.products with
      | error e =>
        rw [record_atomic_sale_error db rid _ t today e (by simp) hvd]
        exact ⟨rfl, rfl⟩
      | ok ps =>
        rw [record_atomic_sale_ok db rid _ t today ps (by simp) hvd] at h
        simp at h

/-- Witness for C1: a request whose single line item asks for 30 units of a
product holding 10 fails, and the state comes back unchanged. -/
theorem C1_sale_error_rolls_back_witness :
    (record_atomic_sale exDB 7 [{ product_id := 1, quantity := 30, price := 5 }] (some 150) 0).2.2.isSome ∧
    ((record_atomic_sale exDB 7 [{ product_id := 1, quantity := 30, price := 5 }] (some 150) 0).1 = exDB ∧
      (record_atomic_sale exDB 7 [{ product_id := 1, quantity := 30, price := 5 }] (some 150) 0).2.1 = none) :=
  ⟨by decide, C1_sale_error_rolls_back exDB 7 _ (some 150) 0 (by decide)⟩

/-- C8 counterexample: for a line item whose product id (99) references no
product and whose quantity is 0, `record_atomic_sale` reports the invalid
quantity, not the missing product — the quantity check runs first,
contradicting the claimed existence-then-quantity order. -/
theorem C8_counterexample :
    (record_atomic_sale exDB 7 [exGhostItem] (some 1) 0).2.2 =
      some (.invalidQuantity 99) ∧
    ¬ (record_atomic_sale exDB 7 [exGhostItem] (some 1) 0).2.2 =
      some (.productNotFound 99) := by decide

/-- C8 (amended): `record_atomic_sale` examines line items in input order,
and for the first failing item the per-item checks run in this order:
quantity positivity (InvalidQuantity if quantity ≤ 0), then product
existence against the running stock state (ProductNotFound), then stock
sufficiency (InsufficientStock); for a line item whose product id
references no product AND whose quantity is ≤ 0 the returned error is
InvalidQuantity. -/
theorem C8_check_order_amended (db : DB) (rid : Nat)
    (pre post : List SaleItem) (it : SaleItem) (t : ℚ) (today : Int)
    (ps₁ : List Product)
    (hpre : validateAndDeduct pre db.products = .ok ps₁) :
    (it.quantity ≤ 0 →
      (record_atomic_sale db rid (pre ++ it :: post) (some t) today).2.2 =
        some (.invalidQuantity it.product_id)) ∧
    (0 < it.quantity →
      ps₁.find? (fun q => q.id == it.product_id) = none →
      (record_atomic_sale db rid (pre ++ it :: post) (some t) today).2.2 =
        some (.productNotFound it.product_id)) ∧
    (∀ p, 0 < it.quantity →
      ps₁.find? (fun q => q.id == it.product_id) = some p →
      p.stock_level < it.quantity →
      (record_atomic_sale db rid (pre ++ it :: post) (some t) today).2.2 =
        some (.insufficientStock it.product_id)) := by
  have hne : pre ++ it :: post ≠ [] := by simp
  have hstep := validateAndDeduct_append pre (it :: post) db.products ps₁ hpre
  refine ⟨?_, ?_, ?_⟩
  · intro hq
    have hvd : validateAndDeduct (pre ++ it :: post) db.products =
        .error (.invalidQuantity it.product_id) := by
      rw [hstep]
      simp [validateAndDeduct, hq]
    rw [record_atomic_sale_error _ _ _ _ _ _ hne hvd]
  · intro hq hfind
    have hvd : validateAndDeduct (pre ++ it :: post) db.products =
        .error (.productNotFound it.product_id) := by
      rw [hstep]
      simp only [validateAndDeduct, if_neg (by omega : ¬ it.quantity ≤ 0),
        hfind]
    rw [record_atomic_sale_error _ _ _ _ _ _ hne hvd]
  · intro p hq hfind hs
    have hvd : validateAndDeduct (pre ++ it :: post) db.products =
        .error (.insufficientStock it.product_id) := by
      rw [hstep]
      simp only [validateAndDeduct, if_neg (by omega : ¬ it.quantity ≤ 0),
        hfind, if_pos hs]
    rw [record_atomic_sale_error _ _ _ _ _ _ hne hvd]

/-- Witness for C8 (amended): the ghost item (missing product, quantity 0)
at the head of the request yields InvalidQuantity. -/
theorem C8_check_order_amended_witness :
    validateAndDeduct [] exDB.products = .ok exDB.products ∧
    (record_atomic_sale exDB 7 ([] ++ exGhostItem :: []) (some 1) 0).2.2 =
      some (.invalidQuantity 99) :=
  ⟨rfl, (C8_check_order_amended exDB 7 [] [] exGhostItem 1 0
    exDB.products rfl).1 (by decide)⟩

/-- C9: undoing a sale id that references no Sale returns NotFound with the
state untouched; consequently a successful undo followed by a second undo
of the same id is a rejected no-op. -/
theorem C9_undo_missing_sale (db : DB) (sid : Nat) :
    (db.saleGet sid = none → undo_sale db sid = (db, .notFound)) ∧
    (∀ db', undo_sale db sid = (db', .ok) →
      undo_sale db' sid = (db', .notFound)) := by
  constructor
  · intro h
    unfold undo_sale
    rw [h]
  · intro db' h
    cases hget : db.saleGet sid with
    | none =>
      unfold undo_sale at h
      rw [hget] at h
      exact absurd h (by simp)
    | some sale =>
      rw [undo_sale_found db sid sale hget] at h
      have hdb : db'.sales = db.sales.filter (fun s => !(s.id == sid)) := by
        have h3 := congrArg (fun x => x.1.sales) h
        simpa using h3.symm
      have hnone : db'.saleGet sid = none := by
        unfold DB.saleGet
        rw [hdb]
        exact find?_filter_self_none _ _
      unfold undo_sale
      rw [hnone]

/-- Witness for C9: undoing sale 1 in `exDB3` succeeds once, and undoing
the same id again returns NotFound with no state change. -/
theorem C9_undo_missing_sale_witness :
    undo_sale exDB3 1 = (exDB3Undone, .ok) ∧
    undo_sale exDB3Undone 1 = (exDB3Undone, .notFound) :=
  ⟨by decide, (C9_undo_missing_sale exDB3 1).2 exDB3Undone (by decide)⟩

theorem metricsGet_record_ok (db : DB) (rid : Nat) (items : List SaleItem)
    (t : ℚ) (today : Int) (ps : List Product) (hne : items ≠ [])
    (hvd : validateAndDeduct items db.products = .ok ps) :
    (record_atomic_sale db rid items (some t) today).1.metricsGet rid =
      some (updateMetricsOnSale ((db.metricsGet rid).getD (freshMetrics rid))
        t today) := by
  rw [record_atomic_sale_ok db rid items t today ps hne hvd]
  unfold DB.metricsGet
  apply setMetrics_find_self
  cases hm : db.metrics.find? (fun m => m.retailer_id == rid) with
  | none => simp [hm, updateMetricsOnSale, freshMetrics]
  | some m =>
    have hrid : m.retailer_id = rid := by
      have := List.find?_some hm
      simpa using this
    simp [hm, updateMetricsOnSale, freshMetrics, hrid]

/-- C4: for a successful sale, the streak rule holds: with existing metrics
`last_sale_date = D`, `current_streak = N`, a sale on day `D` leaves the
streak at `N`; on `D+1` it becomes `N+1`; on `D+2` or later, or with `D`
in the future, it resets to `1`; with no metrics row (first-ever sale) it
becomes `1`. In every case `last_sale_date` is set to today. -/
theorem C4_streak_rule (db : DB) (rid : Nat) (items : List SaleItem)
    (t : ℚ) (today D N : Int) (ps : List Product) (hne : items ≠ [])
    (hvd : validateAndDeduct items db.products = .ok ps) :
    (∀ m, db.metricsGet rid = some m → m.last_sale_date = some D →
      m.current_streak = some N →
      (record_atomic_sale db rid items (some t) today).1.metricsGet rid =
        some (updateMetricsOnSale m t today) ∧
      (today = D → (updateMetricsOnSale m t today).current_streak = some N) ∧
      (today = D + 1 →
        (updateMetricsOnSale m t today).current_streak = some (N + 1)) ∧
      (D + 2 ≤ today ∨ today < D →
        (updateMetricsOnSale m t today).current_streak = some 1) ∧
      (updateMetricsOnSale m t today).last_sale_date = some today) ∧
    (db.metricsGet rid = none →
      (record_atomic_sale db rid items (some t) today).1.metricsGet rid =
        some (updateMetricsOnSale (freshMetrics rid) t today) ∧
      (updateMetricsOnSale (freshMetrics rid) t today).current_streak =
        some 1 ∧
      (updateMetricsOnSale (freshMetrics rid) t today).last_sale_date =
        some today) := by
  have hget := metricsGet_record_ok db rid items t today ps hne hvd
  constructor
  · intro m hm hD hN
    rw [hm] at hget
    refine ⟨by simpa using hget, ?_, ?_, ?_, rfl⟩
    · intro hT
      subst hT
      simp only [updateMetricsOnSale]
      unfold streakUpdate
      rw [hD]
      simp [hN]
    · intro hT
      subst hT
      simp only [updateMetricsOnSale]
      unfold streakUpdate
      rw [hD]
      dsimp only
      rw [if_neg (by omega), if_pos (by omega)]
      simp [hN]
    · intro hT
      simp only [updateMetricsOnSale]
      unfold streakUpdate
      rw [hD]
      dsimp only
      rw [if_neg (by omega), if_neg (by omega)]
  · intro hm
    rw [hm] at hget
    exact ⟨by simpa using hget, rfl, rfl⟩

/-- Witness for C4: retailer 7 has `last_sale_date = 9`, `current_streak
= 4`; a sale on day 10 yields streak 5 and `last_sale_date = 10`. -/
theorem C4_streak_rule_witness :
    exDB2.metricsGet 7 = some exMetrics ∧
    (record_atomic_sale exDB2 7 [exItem] (some 15) 10).1.metricsGet 7 =
      some (updateMetricsOnSale exMetrics 15 10) ∧
    (updateMetricsOnSale exMetrics 15 10).current_streak = some 5 ∧
    (updateMetricsOnSale exMetrics 15 10).last_sale_date = some 10 := by
  have h := (C4_streak_rule exDB2 7 [exItem] 15 10 9 4 _ (by simp)
    rfl).1 exMetrics rfl rfl rfl
  exact ⟨rfl, h.1, h.2.2.1 rfl, h.2.2.2.2⟩

/-- C5: a successful undo of a sale whose retailer has a metrics row
decrements `daily_quota_usd` by the sale's `total_amount`, floored at zero,
and leaves `current_streak` and `last_sale_date` untouched. -/
theorem C5_undo_quota_floor (db : DB) (sid : Nat) (sale : Sale)
    (m : RetailerMetrics) (hs : db.saleGet sid = some sale)
    (hm : db.metricsGet sale.retailer_id = some m) :
    (undo_sale db sid).2 = .ok ∧
    (undo_sale db sid).1.metricsGet sale.retailer_id =
      some (undoQuota sale.total_amount m) ∧
    (undoQuota sale.total_amount m).daily_quota_usd =
      some (max 0 (m.daily_quota_usd.getD 0 - sale.total_amount)) ∧
    (undoQuota sale.total_amount m).current_streak = m.current_streak ∧
    (undoQuota sale.total_amount m).last_sale_date = m.last_sale_date := by
  rw [undo_sale_found db sid sale hs]
  refine ⟨rfl, ?_, rfl, rfl, rfl⟩
  unfold DB.metricsGet
  unfold DB.metricsGet at hm
  show (updateMetricsFirst db.metrics sale.retailer_id
    (undoQuota sale.total_amount)).find?
      (fun x => x.retailer_id == sale.retailer_id) = _
  rw [updateMetricsFirst_find_self db.metrics sale.retailer_id
    (undoQuota sale.total_amount) (fun x => rfl), hm]
  rfl

/-- Witness for C5: undoing `exSale` (total 15) in `exDB2` floors the
quota at `max 0 (20 - 15)` and leaves streak 4 and date 9 in place. -/
theorem C5_undo_quota_floor_witness :
    exDB2.saleGet 1 = some exSale ∧
    exDB2.metricsGet 7 = some exMetrics ∧
    ((undo_sale exDB2 1).2 = .ok ∧
     (undo_sale exDB2 1).1.metricsGet 7 = some (undoQuota 15 exMetrics) ∧
     (undoQuota 15 exMetrics).daily_quota_usd =
       some (max 0 ((20 : ℚ) - 15)) ∧
     (undoQuota 15 exMetrics).current_streak = some 4 ∧
     (undoQuota 15 exMetrics).last_sale_date = some 9) :=
  ⟨rfl, rfl, C5_undo_quota_floor exDB2 1 exSale exMetrics rfl rfl⟩

/-- C6: a sale whose non-empty line items all pass the per-item checks
succeeds; the created Sale carries exactly the caller-declared total and
the retailer's quota grows by exactly that declared total — `t` here is
arbitrary and in particular never compared with the line items' prices or
quantities, so the server never recomputes or verifies it. -/
theorem C6_declared_total_trusted (db : DB) (rid : Nat)
    (items : List SaleItem) (t : ℚ) (today : Int) (ps : List Product)
    (hne : items ≠ []) (hvd : validateAndDeduct items db.products = .ok ps) :
    (record_atomic_sale db rid items (some t) today).2.2 = none ∧
    (record_atomic_sale db rid items (some t) today).2.1 =
      some (mkSale db rid t items) ∧
    (mkSale db rid t items).total_amount = t ∧
    ((record_atomic_sale db rid items (some t) today).1.metricsGet rid).map
        RetailerMetrics.daily_quota_usd =
      some (some (((db.metricsGet rid).getD
        (freshMetrics rid)).daily_quota_usd.getD 0 + t)) := by
  refine ⟨?_, ?_, rfl, ?_⟩
  · rw [record_atomic_sale_ok db rid items t today ps hne hvd]
  · rw [record_atomic_sale_ok db rid items t today ps hne hvd]
  · rw [metricsGet_record_ok db rid items t today ps hne hvd]
    rfl

/-- Witness for C6 at a declared total of 999, which differs from the
line-item arithmetic `3 × 5 = 15`: the sale still succeeds, stores 999 and
adds 999 to the quota. -/
theorem C6_declared_total_trusted_witness :
    ([exItem] ≠ []) ∧
    ((record_atomic_sale exDB2 7 [exItem] (some 999) 10).2.2 = none ∧
     (record_atomic_sale exDB2 7 [exItem] (some 999) 10).2.1 =
       some (mkSale exDB2 7 999 [exItem]) ∧
     (mkSale exDB2 7 999 [exItem]).total_amount = 999 ∧
     ((record_atomic_sale exDB2 7 [exItem] (some 999) 10).1.metricsGet
         7).map RetailerMetrics.daily_quota_usd =
       some (some (((exDB2.metricsGet 7).getD
         (freshMetrics 7)).daily_quota_usd.getD 0 + 999))) :=
  ⟨by simp, C6_declared_total_trusted exDB2 7 [exItem] 999 10 _ (by simp)
    rfl⟩

/-- C7 counterexample: retailer id 1 references no user in `exDB` (the
users table is empty), yet the sale succeeds — no error is returned, a
Sale row is created and stock is decremented, contradicting the claim that
such a request fails and leaves state unchanged. -/
theorem C7_counterexample :
    (1 ∉ exDB.users) ∧
    (record_atomic_sale exDB 1 [exItem] (some 15) 0).2.2 = none ∧
    (record_atomic_sale exDB 1 [exItem] (some 15) 0).1.sales.length = 1 ∧
    stockOf (record_atomic_sale exDB 1 [exItem] (some 15) 0).1.products 1 =
      some 7 := by decide

/-- C7 (amended): `record_atomic_sale` performs no existence check on
`retailer_id` against the users table: a request whose line items pass
validation succeeds even when `retailer_id` references no user, creating a
Sale row (and metrics) for that id while the users table itself is
untouched. -/
theorem C7_no_user_check_amended (db : DB) (rid : Nat)
    (items : List SaleItem) (t : ℚ) (today : Int) (ps : List Product)
    (hne : items ≠ []) (hvd : validateAndDeduct items db.products = .ok ps)
    (_huser : rid ∉ db.users) :
    (record_atomic_sale db rid items (some t) today).2.2 = none ∧
    (record_atomic_sale db rid items (some t) today).2.1 =
      some (mkSale db rid t items) ∧
    (record_atomic_sale db rid items (some t) today).1.sales =
      db.sales ++ [mkSale db rid t items] ∧
    (record_atomic_sale db rid items (some t) today).1.users = db.users := by
  rw [record_atomic_sale_ok db rid items t today ps hne hvd]
  exact ⟨rfl, rfl, rfl, rfl⟩

/-- Witness for C7 (amended) at retailer id 1, absent from `exDB.users`. -/
theorem C7_no_user_check_amended_witness :
    ((1 ∉ exDB.users) ∧ [exItem] ≠ []) ∧
    ((record_atomic_sale exDB 1 [exItem] (some 15) 0).2.2 = none ∧
     (record_atomic_sale exDB 1 [exItem] (some 15) 0).2.1 =
       some (mkSale exDB 1 15 [exItem]) ∧
     (record_atomic_sale exDB 1 [exItem] (some 15) 0).1.sales =
       exDB.sales ++ [mkSale exDB 1 15 [exItem]] ∧
     (record_atomic_sale exDB 1 [exItem] (some 15) 0).1.users =
       exDB.users) :=
  ⟨⟨by decide, by simp⟩,
    C7_no_user_check_amended exDB 1 [exItem] 15 0 _ (by simp) rfl
      (by decide)⟩

/-- C2: a successful sale lowers the total stock across all products by
exactly the sum of the line-item quantities, and immediately undoing that
same sale (all referenced products still exist, having just been validated)
restores every product row — the whole products table — to its pre-sale
state: undo is an exact inverse of apply with respect to stock. -/
theorem C2_stock_conservation_undo_inverse (db : DB) (rid : Nat)
    (items : List SaleItem) (t : ℚ) (today : Int) (ps : List Product)
    (hne : items ≠ []) (hvd : validateAndDeduct items db.products = .ok ps)
    (hfresh : ∀ s ∈ db.sales, s.id ≠ db.next_sale_id) :
    sumStock (record_atomic_sale db rid items (some t) today).1.products =
      sumStock db.products - totalQty items ∧
    (undo_sale (record_atomic_sale db rid items (some t) today).1
        db.next_sale_id).1.products = db.products := by
  have hrec := record_atomic_sale_ok db rid items t today ps hne hvd
  constructor
  · rw [hrec]
    exact sumStock_validateAndDeduct items db.products ps hvd
  · have h1 : (record_atomic_sale db rid items (some t)
        today).1.saleGet db.next_sale_id = some (mkSale db rid t items) := by
      rw [hrec]
      unfold DB.saleGet
      exact find?_append_sale db.sales _ db.next_sale_id hfresh rfl
    rw [undo_sale_found _ _ _ h1]
    show restoreStock (mkSale db rid t items).sale_items_json
      (record_atomic_sale db rid items (some t) today).1.products =
        db.products
    rw [hrec]
    show restoreStock items ps = db.products
    rw [validateAndDeduct_ok_eq_deductAll items db.products ps hvd]
    exact restoreStock_deductAll items db.products

/-- Witness for C2: selling 3 of 10 units in `exDB2` and undoing the new
sale (id 2) restores the products table. -/
theorem C2_stock_conservation_undo_inverse_witness :
    (∀ s ∈ exDB2.sales, s.id ≠ exDB2.next_sale_id) ∧
    (sumStock (record_atomic_sale exDB2 7 [exItem] (some 15) 10).1.products
        = sumStock exDB2.products - totalQty [exItem] ∧
      (undo_sale (record_atomic_sale exDB2 7 [exItem] (some 15) 10).1
          2).1.products = exDB2.products) :=
  ⟨by decide, C2_stock_conservation_undo_inverse exDB2 7 [exItem] 15 10 _
    (by simp) rfl (by decide)⟩

/-- C3 counterexample: the product holds 5 units (nonnegative), yet
`InventoryManager.update_stock` with delta −10 succeeds and leaves
`stock_level = -5`: the adjustment is not floored at zero and drives the
stock negative, contradicting the claim. -/
theorem C3_counterexample :
    stockOf exLowDB.products 1 = some 5 ∧
    (update_stock exLowDB 1 (-10) none "Disposal" none).2.1 = true ∧
    (update_stock exLowDB 1 (-10) none "Disposal" none).2.2 = none ∧
    stockOf (update_stock exLowDB 1 (-10) none "Disposal" none).1.products 1
      = some (-5) := by decide

/-- C3 (amended): starting from a table of nonnegative stocks, sale-apply,
sale-undo (for sales whose recorded quantities are nonnegative, as apply
records them) and the disposal route (which floors at zero) all preserve
`stock_level ≥ 0`; `InventoryManager.update_stock`, however, adds its delta
without flooring, so a negative delta exceeding the current stock drives
`stock_level` negative. -/
theorem C3_nonneg_amended (db : DB) (hn : allNonneg db.products)
    (hq : ∀ sale ∈ db.sales, ∀ it ∈ sale.sale_items_json, 0 ≤ it.quantity) :
    (∀ rid items total today,
      allNonneg (record_atomic_sale db rid items total today).1.products) ∧
    (∀ sid, allNonneg (undo_sale db sid).1.products) ∧
    (∀ pid uid qty notes,
      allNonneg (dispose_product db pid uid qty notes).1.products) ∧
    (∀ pid delta p, db.productGet pid = some p →
      stockOf (update_stock db pid delta none "Restock" none).1.products pid
        = some (p.stock_level + delta)) := by
  refine ⟨?_, ?_, ?_, ?_⟩
  · intro rid items total today
    cases total with
    | none => exact hn
    | some t =>
      cases items with
      | nil => exact hn
      | cons it rest =>
        cases hvd : validateAndDeduct (it :: rest) db.products with
        | error e =>
          rw [record_atomic_sale_error db rid _ t today e (by simp) hvd]
          exact hn
        | ok ps =>
          rw [record_atomic_sale_ok db rid _ t today ps (by simp) hvd]
          exact validateAndDeduct_ok_allNonneg _ _ _ hvd hn
  · intro sid
    cases hget : db.saleGet sid with
    | none =>
      unfold undo_sale
      rw [hget]
      exact hn
    | some sale =>
      rw [undo_sale_found db sid sale hget]
      show allNonneg (restoreStock sale.sale_items_json db.products)
      have hmem : sale ∈ db.sales := by
        unfold DB.saleGet at hget
        exact List.mem_of_find?_eq_some hget
      exact restoreStock_allNonneg _ _ (hq sale hmem) hn
  · intro pid uid qty notes
    unfold dispose_product
    by_cases h0 : pid = 0 ∨ uid = 0 ∨ qty ≤ 0
    · rw [if_pos h0]
      exact hn
    · rw [if_neg h0]
      cases hg : db.productGet pid with
      | none => exact hn
      | some p =>
        show allNonneg (updateStock db.products pid (fun s => max 0 (s - qty)))
        exact allNonneg_updateStock _ _ _ hn (fun p₀ _ => le_max_left 0 _)
  · intro pid delta p hg
    unfold update_stock
    rw [hg]
    show stockOf (updateStock db.products pid (fun s => s + delta)) pid = _
    rw [stockOf_updateStock_self]
    have : stockOf db.products pid = some p.stock_level := by
      unfold DB.productGet at hg
      simp [stockOf, hg]
    rw [this]
    rfl

/-- Witness for C3 (amended) on `exDB2`: apply, undo and dispose keep all
stocks nonnegative, while `update_stock` with delta −12 yields `10 - 12`. -/
theorem C3_nonneg_amended_witness :
    allNonneg (record_atomic_sale exDB2 7 [exItem] (some 15) 10).1.products ∧
    allNonneg (undo_sale exDB2 1).1.products ∧
    allNonneg (dispose_product exDB2 1 7 30 none).1.products ∧
    stockOf (update_stock exDB2 1 (-12) none "Restock" none).1.products 1 =
      some (exProduct.stock_level + (-12)) :=
  have h := C3_nonneg_amended exDB2 (by decide) (by decide)
  ⟨h.1 7 [exItem] (some 15) 10, h.2.1 1, h.2.2.1 1 7 30 none,
    h.2.2.2 1 (-12) exProduct rfl⟩

/-- C10: when a request lists the same product id several times, each
occurrence is checked against the stock remaining after the in-memory
decrements of earlier occurrences (the loop threads the updated table), so
with well-formed items (positive quantities, products present) the sale is
rejected with an InsufficientStock error whenever the summed quantities for
a requested product exceed its initial stock, and a successful sale lowers
that product's stock by the total demanded across all its occurrences. -/
theorem C10_duplicate_items (db : DB) (rid : Nat) (items : List SaleItem)
    (t : ℚ) (today : Int) (pid : Nat) (s₀ : Int)
    (hq : ∀ it ∈ items, 1 ≤ it.quantity)
    (hp : ∀ it ∈ items, (stockOf db.products it.product_id).isSome)
    (hs₀ : stockOf db.products pid = some s₀) :
    ((∃ it ∈ items, it.product_id = pid) → s₀ < demandFor items pid →
      ∃ pid', (record_atomic_sale db rid items (some t) today).2.2 =
        some (.insufficientStock pid')) ∧
    (∀ ps, validateAndDeduct items db.products = .ok ps →
      stockOf (record_atomic_sale db rid items (some t) today).1.products
        pid = some (s₀ - demandFor items pid)) := by
  constructor
  · intro hocc hlt
    have hne : items ≠ [] := by
      rcases hocc with ⟨it, hit, -⟩
      intro h
      rw [h] at hit
      exact absurd hit (List.not_mem_nil it)
    cases hvd : validateAndDeduct items db.products with
    | ok ps =>
      exfalso
      obtain ⟨s, hsf, hs⟩ := validateAndDeduct_ok_stockOf_nonneg items
        db.products ps hvd pid hocc
      have heq := validateAndDeduct_ok_eq_deductAll _ _ _ hvd
      subst heq
      rw [stockOf_deductAll, hs₀] at hsf
      simp only [Option.map_some', Option.some.injEq] at hsf
      omega
    | error e =>
      obtain ⟨pid', rfl⟩ := validateAndDeduct_error_kind items db.products e
        hvd hq hp
      exact ⟨pid',
        by rw [record_atomic_sale_error db rid items t today _ hne hvd]⟩
  · intro ps hvd
    cases items with
    | nil =>
      simpa [demandFor] using hs₀
    | cons it rest =>
      rw [record_atomic_sale_ok db rid _ t today ps (by simp) hvd]
      have heq := validateAndDeduct_ok_eq_deductAll _ _ _ hvd
      subst heq
      rw [stockOf_deductAll, hs₀]
      rfl

/-- Witness for C10: two occurrences of product 1 (3 units each) in one
request leave stock `10 - demandFor = 4` after a successful sale. -/
theorem C10_duplicate_items_witness :
    stockOf (record_atomic_sale exDB 7 [exItem, exItem] (some 30)
        0).1.products 1 = some (10 - demandFor [exItem, exItem] 1) :=
  (C10_duplicate_items exDB 7 [exItem, exItem] 30 0 1 10 (by decide)
    (by decide) (by decide)).2 _ rfl

end StockaDoodle
